import Mathlib

/-!
Verification development for the HYTOPIA celestial-isles zone/session
orchestration layer.  The definitions below are shallow embeddings of the
TypeScript source files: persisted player records become an explicit store
value threaded through each handler, JS `undefined` fields become `Option`,
and engine side effects (UI pushes, despawns, world transfers, chat
messages) are recorded in explicit result structures.  JS numbers are
modelled as `Int` (currency) and `ℚ` (positions and millisecond clocks).
-/

/-- Persisted per-player record (interface PlayerCoinData in
islands/shared/types.ts and coin.ts).  Every field may be absent
(JS `undefined`), hence `Option`. -/
structure PlayerCoinData where
  gold : Option Int
  collectedCoins : Option (List String)
  selectedIsland : Option String
  selectedParticle : Option String
  ownedParticles : Option (List String)
deriving Repr, DecidableEq

/-- The record written by the initialisation branch of handleCoinCollection
(coin.ts): `{ gold: 0, collectedCoins: [] }`.  A setPersistedData call is
modelled as replacing the stored record with exactly the fields written. -/
def initCoinData : PlayerCoinData :=
  { gold := some 0, collectedCoins := some [], selectedIsland := none,
    selectedParticle := none, ownedParticles := none }

/-- Condition of the initialisation branch in handleCoinCollection:
`playerData === undefined || playerData.gold === undefined`. -/
def needsInit (store : Option PlayerCoinData) : Bool :=
  match store with
  | none => true
  | some pd => pd.gold.isNone

/-- The gold balance the handler works with after its defaulting steps
(`playerData.gold || 0`, with the whole record replaced when the
initialisation branch fires). -/
def effGold (store : Option PlayerCoinData) : Int :=
  if needsInit store then 0 else ((store.getD initCoinData).gold.getD 0)

/-- The collected-coin list the handler works with after its defaulting
steps (note: when the initialisation branch fires because `gold` is absent,
the whole local record is replaced, so any pre-existing list is dropped). -/
def effCoins (store : Option PlayerCoinData) : List String :=
  if needsInit store then [] else ((store.getD initCoinData).collectedCoins.getD [])

/-- addToLeaderboard (coin.ts, part 007): pushes one entry with the player
name onto the per-island leaderboard list held in global persisted data.
Timestamps are irrelevant to the claims and omitted. -/
def addToLeaderboard (playerName : String) (leaderboard : List String) : List String :=
  leaderboard ++ [playerName]

/-- getLastCoinId (coin.ts): id of the last entry of the declared coin list,
null when the list is empty. -/
def getLastCoinId (coinIds : List String) : Option String :=
  coinIds.getLast?

/-- Observable outcome of one handleCoinCollection call. -/
structure CollectResult where
  /-- persisted player record after the call -/
  store : Option PlayerCoinData
  /-- the island leaderboard after the call -/
  leaderboard : List String
  /-- number of setPersistedData calls issued -/
  persistWrites : Nat
  /-- currency granted by this call -/
  goldGranted : Int
  /-- whether addToLeaderboard was invoked -/
  admitted : Bool
  /-- whether the coin entity was despawned (cooldown started) -/
  coinDespawned : Bool
deriving Repr, DecidableEq

/-- handleCoinCollection (coin.ts, part 007, lines 96-222).  Inputs: whether
the coin entity is currently spawned, the coin id, the collecting player
name, the declared last-coin id of the island, the persisted player record
and the island leaderboard.  Follows the source order: read and (when
needed) initialise persisted data, bail out if the coin is despawned,
otherwise grant +1 gold, append the coin id, persist, and invoke the
one-time leaderboard admission exactly when this is the declared last coin
and its id was absent from the collected list before the event. -/
def handleCoinCollection (coinSpawned : Bool) (coinId playerName : String)
    (lastCoinId : Option String) (store : Option PlayerCoinData)
    (leaderboard : List String) : CollectResult :=
  let store1 := if needsInit store then some initCoinData else store
  let w1 := if needsInit store then 1 else 0
  let g := effGold store
  let cs := effCoins store
  if !coinSpawned then
    { store := store1, leaderboard := leaderboard, persistWrites := w1,
      goldGranted := 0, admitted := false, coinDespawned := false }
  else
    let isLastCoin := lastCoinId == some coinId
    let isFirstTimeLastCoin := isLastCoin && !(cs.contains coinId)
    let g2 := g + 1
    let cs2 := cs ++ [coinId]
    let store2 : Option PlayerCoinData :=
      some { gold := some g2, collectedCoins := some cs2, selectedIsland := none,
             selectedParticle := none, ownedParticles := none }
    let lb2 := if isFirstTimeLastCoin then addToLeaderboard playerName leaderboard
               else leaderboard
    { store := store2, leaderboard := lb2, persistWrites := w1 + 1,
      goldGranted := 1, admitted := isFirstTimeLastCoin, coinDespawned := true }

/-- Price of a purchasable particle (particlePurchase.ts). -/
def PARTICLE_COST : Int := 15

/-- Particles owned by every player for free (particlePurchase.ts). -/
def DEFAULT_PARTICLES : List String := ["particle1", "particle2", "particle3"]

/-- Valid particle types, the keys of PARTICLE_CONFIGS in
particleManager (ParticleManager.isValidParticleType). -/
def validParticleTypes : List String := ["particle1", "particle2", "particle3"]

/-- ParticleManager.isValidParticleType. -/
def isValidParticleType (particleId : String) : Bool :=
  validParticleTypes.contains particleId

/-- The local player record purchaseParticle works with after its
defaulting steps (lines 70-90 of particlePurchase.ts); unlike the coin
handler, this initialisation writes nothing back. -/
def purchaseLocal (store : Option PlayerCoinData) : PlayerCoinData :=
  if needsInit store then
    { gold := some 0, collectedCoins := some [], selectedIsland := none,
      selectedParticle := none, ownedParticles := some [] }
  else
    let pd := store.getD initCoinData
    { pd with
      gold := some (pd.gold.getD 0),
      collectedCoins := some (pd.collectedCoins.getD []),
      ownedParticles := some (pd.ownedParticles.getD []) }

/-- Observable outcome of one purchaseParticle call. -/
structure PurchaseResult where
  /-- the boolean the function returns -/
  success : Bool
  /-- persisted player record after the call -/
  store : Option PlayerCoinData
  /-- number of setPersistedData calls issued -/
  persistWrites : Nat
deriving Repr, DecidableEq

/-- purchaseParticle (particlePurchase.ts, lines 64-139): default particles
and already-owned particles succeed without charging; with less gold than
PARTICLE_COST the call fails and writes nothing; otherwise it deducts the
price, appends the particle to the owned set and persists all five
fields. -/
def purchaseParticle (store : Option PlayerCoinData) (particleId : String) :
    PurchaseResult :=
  let pd := purchaseLocal store
  if DEFAULT_PARTICLES.contains particleId then
    { success := true, store := store, persistWrites := 0 }
  else if (pd.ownedParticles.getD []).contains particleId then
    { success := true, store := store, persistWrites := 0 }
  else if pd.gold.getD 0 < PARTICLE_COST then
    { success := false, store := store, persistWrites := 0 }
  else
    let pd2 := { pd with
                 gold := some (pd.gold.getD 0 - PARTICLE_COST),
                 ownedParticles := some ((pd.ownedParticles.getD []) ++ [particleId]) }
    { success := true, store := some pd2, persistWrites := 1 }

/-- ownsParticle (particlePurchase.ts): default particles are always owned;
otherwise membership in the persisted owned set (or [] when absent). -/
def ownsParticle (store : Option PlayerCoinData) (particleId : String) : Bool :=
  DEFAULT_PARTICLES.contains particleId ||
    (((store.bind fun pd => pd.ownedParticles).getD []).contains particleId)

/-- The spread-update `{...currentData, selectedParticle: particleId}`
written by handleSelectParticle. -/
def setSelectedParticle (store : Option PlayerCoinData) (particleId : String) :
    PlayerCoinData :=
  match store with
  | none => { gold := none, collectedCoins := none, selectedIsland := none,
              selectedParticle := some particleId, ownedParticles := none }
  | some pd => { pd with selectedParticle := some particleId }

/-- Observable outcome of one handleSelectParticle call. -/
structure SelectParticleResult where
  /-- persisted player record after the call -/
  store : Option PlayerCoinData
  /-- number of insufficient-funds chat messages sent -/
  insufficientMsgs : Nat
  /-- number of particle-applied chat messages sent -/
  appliedMsgs : Nat
deriving Repr, DecidableEq

/-- handleSelectParticle (playerUIHandlers.ts, part 008, lines 187-251):
invalid particle ids are ignored; a particle that is not owned is first
purchased, and on purchase failure exactly one message is sent and the
selection is left untouched; otherwise selectedParticle is persisted and,
when the player entity exists, the emitter is swapped and a confirmation
message sent. -/
def handleSelectParticle (store : Option PlayerCoinData) (particleId : String)
    (playerEntityPresent : Bool) : SelectParticleResult :=
  if !isValidParticleType particleId then
    { store := store, insufficientMsgs := 0, appliedMsgs := 0 }
  else
    let alreadyOwned := ownsParticle store particleId
    let pr := purchaseParticle store particleId
    if !alreadyOwned && !pr.success then
      { store := store, insufficientMsgs := 1, appliedMsgs := 0 }
    else
      let store1 := if alreadyOwned then store else pr.store
      { store := some (setSelectedParticle store1 particleId),
        insufficientMsgs := 0,
        appliedMsgs := if playerEntityPresent then 1 else 0 }

/-- Successor structure of the island chain: the zone immediately
preceding a given zone (island1 is first). -/
def prevIslandOf (islandId : String) : Option String :=
  if islandId = "island2" then some "island1"
  else if islandId = "island3" then some "island2"
  else none

/-- Modelled from the spec: hasUnlockedIsland of islands/shared/coin.ts is
imported by every UI handler variant but the defining file is absent from
the sources.  Section 4.5 of the design: a zone other than the first is
locked until the player has collected the last collectible of the
immediately preceding zone, as a pure function of the collected-item
history.  `lastCoinOf` supplies each island with its declared last coin id
(asset data, also outside the sources). -/
def hasUnlockedIsland (lastCoinOf : String → Option String)
    (store : Option PlayerCoinData) (islandId : String) : Bool :=
  if islandId = "island1" then true
  else
    match prevIslandOf islandId with
    | none => false
    | some prev =>
      match lastCoinOf prev with
      | none => false
      | some c => ((store.bind fun pd => pd.collectedCoins).getD []).contains c

/-- The spread-update `{...currentData, selectedIsland: islandId}` written
by handleSelectIsland. -/
def setSelectedIsland (store : Option PlayerCoinData) (islandId : String) :
    PlayerCoinData :=
  match store with
  | none => { gold := none, collectedCoins := none, selectedIsland := some islandId,
              selectedParticle := none, ownedParticles := none }
  | some pd => { pd with selectedIsland := some islandId }

/-- Per-player session slice visible to handleSelectIsland: the persisted
record, whether the avatar entity is tracked in the current world map and
whether a particle emitter is registered. -/
structure SelectIslandState where
  store : Option PlayerCoinData
  sessionPresent : Bool
  emitterPresent : Bool
deriving Repr, DecidableEq

/-- Observable outcome of one handleSelectIsland call. -/
structure SelectIslandResult where
  state : SelectIslandState
  /-- number of locked-island rejection messages sent -/
  lockedMsgs : Nat
  /-- number of entity despawn calls issued -/
  despawns : Nat
  /-- world id passed to player.joinWorld, if any -/
  worldTransfer : Option String
  /-- pending welcome message recorded for the target island, if any -/
  pendingJoinMsg : Option String
deriving Repr, DecidableEq

/-- handleSelectIsland (playerUIHandlers.ts, part 008, lines 110-178):
unknown islands are ignored; a locked island produces exactly one
rejection message and nothing else; otherwise selectedIsland is persisted,
the avatar and emitter of the outgoing session are torn down, a pending
join message is recorded and the world transfer is issued. -/
def handleSelectIsland (mappingIds : List String) (worldIds : List String)
    (lastCoinOf : String → Option String) (st : SelectIslandState)
    (islandId : String) : SelectIslandResult :=
  if !mappingIds.contains islandId then
    { state := st, lockedMsgs := 0, despawns := 0,
      worldTransfer := none, pendingJoinMsg := none }
  else if !hasUnlockedIsland lastCoinOf st.store islandId then
    { state := st, lockedMsgs := 1, despawns := 0,
      worldTransfer := none, pendingJoinMsg := none }
  else
    let store1 : Option PlayerCoinData := some (setSelectedIsland st.store islandId)
    if !worldIds.contains islandId then
      { state := { st with store := store1 }, lockedMsgs := 0, despawns := 0,
        worldTransfer := none, pendingJoinMsg := none }
    else
      { state := { store := store1, sessionPresent := false, emitterPresent := false },
        lockedMsgs := 0,
        despawns := (if st.sessionPresent then 1 else 0) +
                    (if st.emitterPresent then 1 else 0),
        worldTransfer := some islandId, pendingJoinMsg := some islandId }

/-- The persisted record written by handleResetCoinsCommand
(commands.ts, lines 147-151): `{ gold: 0, collectedCoins: [] }`. -/
def resetCoinsData : PlayerCoinData :=
  { gold := some 0, collectedCoins := some [], selectedIsland := none,
    selectedParticle := none, ownedParticles := none }

/-- Per-island leaderboard update performed by handleResetCoinsCommand
(commands.ts, lines 170-177): every entry of the resetting player is
removed. -/
def resetLeaderboard (playerName : String) (leaderboard : List String) :
    List String :=
  leaderboard.filter (fun entry => entry ≠ playerName)

/-- Entity-lifecycle actions emitted by IslandManager.loadIsland:
cleanup despawns every entity of the named island, load spawns the content
of the named island (Island.initialize). -/
inductive IslandAction where
  | cleanup (islandId : String)
  | load (islandId : String)
deriving Repr, DecidableEq

/-- State of one IslandManager (islandManager.ts): the registered island
ids (registerIslands), the id of the currently loaded island and whether
the manager holds a world. -/
structure IslandManagerState where
  registered : List String
  currentIslandId : Option String
  hasWorld : Bool
deriving Repr, DecidableEq

/-- IslandManager.loadIsland (islandManager.ts, lines 44-73): throws
without a world; returns immediately when the requested id is already
current (no despawn, no respawn); throws on an unknown id; otherwise
cleans up the previous island content and loads the new one. -/
def loadIsland (st : IslandManagerState) (islandId : String) :
    Except String (IslandManagerState × List IslandAction) :=
  if !st.hasWorld then
    .error "IslandManager has no world"
  else if st.currentIslandId == some islandId then
    .ok (st, [])
  else if !st.registered.contains islandId then
    .error "island not found"
  else
    .ok ({ st with currentIslandId := some islandId },
      (match st.currentIslandId with
       | some c => [IslandAction.cleanup c]
       | none => []) ++ [IslandAction.load islandId])

/-- Worlds are opaque engine handles; WorldManager.instance.createWorld
returns a fresh one per call, modelled by consecutive numbers. -/
def buildWorlds : List String → Nat → List (String × Nat)
  | [], _ => []
  | id :: rest, n => (id, n) :: buildWorlds rest (n + 1)

/-- IslandWorldManager.initializeWorlds (worldManager.ts, lines 49-75):
one fresh world per key of the island-map mapping, stored in the
`worlds` map in key order. -/
def initWorlds (mappingIds : List String) : List (String × Nat) :=
  buildWorlds mappingIds 0

/-- IslandWorldManager.getWorldForIsland (worldManager.ts, lines 82-84):
`this.worlds.get(islandId) || null`. -/
def getWorldForIsland (worlds : List (String × Nat)) (islandId : String) :
    Option Nat :=
  (worlds.find? (fun p => p.1 == islandId)).map (fun p => p.2)

/-- IslandWorldManager.getIslandIdForWorld (worldManager.ts, lines
116-123): scan the entries for the first island whose world is the given
one. -/
def getIslandIdForWorld (worlds : List (String × Nat)) (w : Nat) :
    Option String :=
  (worlds.find? (fun p => p.2 == w)).map (fun p => p.1)

/-- A 3D position with exact rational coordinates. -/
structure Pos where
  x : ℚ
  y : ℚ
  z : ℚ
deriving Repr, DecidableEq

/-- lerpPosition (spinning-saw.ts): linear interpolation between two
positions. -/
def lerpPosition (start finish : Pos) (t : ℚ) : Pos :=
  { x := start.x + (finish.x - start.x) * t,
    y := start.y + (finish.y - start.y) * t,
    z := start.z + (finish.z - start.z) * t }

/-- Per-mover state of setupLinearMovement (spinning-saw.ts, part 006):
current and target waypoint indices, milliseconds elapsed in the current
segment, the last position pushed via setNextKinematicPosition, whether
the tick listener is still attached, and how many position updates have
been issued. -/
structure MoverState where
  curIdx : Nat
  tgtIdx : Nat
  elapsedMs : ℚ
  pos : Pos
  attached : Bool
  pushes : Nat
deriving Repr, DecidableEq

/-- One tick of the handler installed by setupLinearMovement (spinning-saw
part 006, lines 106-161).  `dist` abstracts the Math.sqrt-based Euclidean
getDistance; each theorem constrains its value on the segments its run
uses.  A detached listener never fires again; a despawned entity detaches
the listener.  Otherwise the handler accumulates the tick delta, computes
segment progress from distance and speed, and either interpolates and
pushes the next kinematic position, or snaps to the segment end and
advances — wrapping when looping, detaching at the final waypoint
otherwise. -/
def tickStep (wps : List Pos) (speed : ℚ) (loop : Bool)
    (dist : Pos → Pos → ℚ) (entSpawned : Bool) (st : MoverState) (d : ℚ) :
    MoverState :=
  if !st.attached then st
  else if !entSpawned then { st with attached := false }
  else
    let elapsed := st.elapsedMs + d
    let startW := wps.getD st.curIdx { x := 0, y := 0, z := 0 }
    let endW := wps.getD st.tgtIdx { x := 0, y := 0, z := 0 }
    let segmentDistance := dist startW endW
    let timeToReachMs := segmentDistance / speed * 1000
    let progress := elapsed / timeToReachMs
    if 1 ≤ progress then
      let st1 := { st with pos := endW, pushes := st.pushes + 1, elapsedMs := elapsed }
      let ci := st.tgtIdx
      let ti := st.tgtIdx + 1
      if wps.length ≤ ti then
        if loop then { st1 with curIdx := ci, tgtIdx := 0, elapsedMs := 0 }
        else { st1 with curIdx := ci, tgtIdx := ti, attached := false }
      else { st1 with curIdx := ci, tgtIdx := ti, elapsedMs := 0 }
    else
      { st with elapsedMs := elapsed,
                pos := lerpPosition startW endW progress,
                pushes := st.pushes + 1 }

/-- Folding the tick handler over a list of tick deltas, with the owning
entity spawned throughout. -/
def runTicks (wps : List Pos) (speed : ℚ) (loop : Bool)
    (dist : Pos → Pos → ℚ) (st : MoverState) (ds : List ℚ) : MoverState :=
  ds.foldl (tickStep wps speed loop dist true) st

/-- setupLinearMovement (spinning-saw.ts, part 006, lines 81-104): motion
is disabled with fewer than two waypoints or a despawned entity; otherwise
the mover starts at waypoint 0 heading for waypoint 1 with the listener
attached. -/
def setupLinearMovement (wps : List Pos) (entSpawned : Bool) :
    Option MoverState :=
  if wps.length < 2 then none
  else if !entSpawned then none
  else some { curIdx := 0, tgtIdx := 1, elapsedMs := 0,
              pos := wps.getD 0 { x := 0, y := 0, z := 0 },
              attached := true, pushes := 0 }

/-- Per-world state of the fallen-player poll (index.ts, part 000, lines
194-244): the tick-delta accumulator, the tracked avatar positions of the
per-world session table, and the persisted player records (which the poll
never touches). -/
structure FallState where
  acc : ℚ
  players : List (String × Pos)
  records : List (String × PlayerCoinData)
deriving Repr, DecidableEq

/-- One TICK_START step of the fallen-player poll (index.ts, part 000):
accumulate the tick delta; once 1000 ms have accumulated, subtract 1000
and reposition every tracked avatar below y = -50 to the island start
position.  Persisted records are never read or written. -/
def fallTick (startPos : Pos) (st : FallState) (tickDeltaMs : ℚ) : FallState :=
  let newAcc := st.acc + tickDeltaMs
  if 1000 ≤ newAcc then
    { acc := newAcc - 1000,
      players := st.players.map
        (fun pr => if pr.2.y < -50 then (pr.1, startPos) else pr),
      records := st.records }
  else
    { st with acc := newAcc }
/-- Helper: the effective gold of a record written by the coin handler. -/
theorem effGold_written (g : Int) (cs : List String) :
    effGold (some { gold := some g, collectedCoins := some cs,
                    selectedIsland := none, selectedParticle := none,
                    ownedParticles := none }) = g := by
  simp [effGold, needsInit]

/-- Helper: the effective collected list of a record written by the coin
handler. -/
theorem effCoins_written (g : Int) (cs : List String) :
    effCoins (some { gold := some g, collectedCoins := some cs,
                     selectedIsland := none, selectedParticle := none,
                     ownedParticles := none }) = cs := by
  simp [effCoins, needsInit]

/-- C1: for the declared last coin of a zone, every collection while the
coin is spawned grants +1 currency (so a re-collection after respawn
grants again), while leaderboard admission happens exactly when the coin
id was absent from the persisted collected set before the event — hence at
most once across repeated collections by the same player. -/
theorem lastCoin_grants_each_time_admits_once
    (c pn : String) (store : Option PlayerCoinData) (lb : List String) :
    let r1 := handleCoinCollection true c pn (some c) store lb
    let r2 := handleCoinCollection true c pn (some c) r1.store r1.leaderboard
    r1.goldGranted = 1 ∧ r2.goldGranted = 1 ∧
    effGold r1.store = effGold store + 1 ∧
    effGold r2.store = effGold store + 2 ∧
    r1.admitted = !((effCoins store).contains c) ∧
    r2.admitted = false ∧
    r2.leaderboard = (if (effCoins store).contains c then lb else lb ++ [pn]) := by
  by_cases h : (effCoins store).contains c <;>
    simp [handleCoinCollection, h, effGold_written, effCoins_written,
      addToLeaderboard] <;>
    omega

/-- Helper: a record that needs the defaulting branch has effective gold 0. -/
theorem effGold_of_needsInit (store : Option PlayerCoinData)
    (h : needsInit store = true) : effGold store = 0 := by
  simp [effGold, h]

/-- Helper: evaluation of effGold on the default record. -/
theorem effGold_initCoinData : effGold (some initCoinData) = 0 := by
  decide

/-- Helper: evaluation of effCoins on the default record. -/
theorem effCoins_initCoinData : effCoins (some initCoinData) = [] := by
  decide

/-- Helper: a record that needs the defaulting branch has an empty
effective collected list. -/
theorem effCoins_of_needsInit (store : Option PlayerCoinData)
    (h : needsInit store = true) : effCoins store = [] := by
  simp [effCoins, h]

/-- Helper: a despawned-coin event leaves the effective gold unchanged. -/
theorem collect_despawned_effGold (coinId pn : String)
    (lastCoinId : Option String) (store : Option PlayerCoinData)
    (lb : List String) :
    effGold (handleCoinCollection false coinId pn lastCoinId store lb).store
      = effGold store := by
  by_cases hn : needsInit store
  · simp [handleCoinCollection, hn, effGold_initCoinData,
      effGold_of_needsInit store hn]
  · simp [handleCoinCollection, hn]

/-- Helper: a despawned-coin event leaves the effective collected list
unchanged. -/
theorem collect_despawned_effCoins (coinId pn : String)
    (lastCoinId : Option String) (store : Option PlayerCoinData)
    (lb : List String) :
    effCoins (handleCoinCollection false coinId pn lastCoinId store lb).store
      = effCoins store := by
  by_cases hn : needsInit store
  · simp [handleCoinCollection, hn, effCoins_initCoinData,
      effCoins_of_needsInit store hn]
  · simp [handleCoinCollection, hn]

/-- Helper: a spawned-coin event adds exactly one gold. -/
theorem collect_spawned_effGold (coinId pn : String)
    (lastCoinId : Option String) (store : Option PlayerCoinData)
    (lb : List String) :
    effGold (handleCoinCollection true coinId pn lastCoinId store lb).store
      = effGold store + 1 := by
  simp [handleCoinCollection, effGold_written]

/-- C7 counterexample: a collection event on a cooling-down (despawned)
coin is not entirely write-free — when the player record is uninitialised,
the defaulting branch persists the default record before the spawn check
runs, so persisted player data is written. -/
theorem coolingDown_event_writes_for_new_player :
    (handleCoinCollection false "coin-1" "alice" (some "coin-9") none
        []).persistWrites = 1 ∧
    (handleCoinCollection false "coin-1" "alice" (some "coin-9") none
        []).store = some initCoinData := by
  decide

/-- C7 amended: a collection event on a cooling-down coin grants no
currency, appends nothing to the collected set, invokes no admission,
leaves the leaderboard alone and starts no cooldown; the only possible
write is the defaulting one, which initialises a missing or gold-less
record to the default record and changes nothing else. -/
theorem coolingDown_collection_noop
    (coinId pn : String) (lastCoinId : Option String)
    (store : Option PlayerCoinData) (lb : List String) :
    let r := handleCoinCollection false coinId pn lastCoinId store lb
    r.goldGranted = 0 ∧ r.admitted = false ∧ r.leaderboard = lb ∧
    r.coinDespawned = false ∧
    effGold r.store = effGold store ∧ effCoins r.store = effCoins store ∧
    r.store = (if needsInit store then some initCoinData else store) ∧
    r.persistWrites = (if needsInit store then 1 else 0) := by
  refine ⟨?_, ?_, ?_, ?_, collect_despawned_effGold _ _ _ _ _,
    collect_despawned_effCoins _ _ _ _ _, ?_, ?_⟩ <;>
    by_cases hn : needsInit store <;>
    simp [handleCoinCollection, hn]

/-- Helper: purchaseLocal always carries the effective gold balance. -/
theorem purchaseLocal_gold (store : Option PlayerCoinData) :
    (purchaseLocal store).gold = some (effGold store) := by
  by_cases h : needsInit store <;>
    simp [purchaseLocal, h, effGold]

/-- Helper: purchaseParticle either leaves the effective gold unchanged,
or the balance covered the price and exactly the price was deducted. -/
theorem purchaseParticle_gold (store : Option PlayerCoinData) (pid : String) :
    effGold (purchaseParticle store pid).store = effGold store ∨
    (PARTICLE_COST ≤ effGold store ∧
     effGold (purchaseParticle store pid).store
       = effGold store - PARTICLE_COST) := by
  simp only [purchaseParticle]
  split_ifs with h1 h2 h3
  · exact Or.inl rfl
  · exact Or.inl rfl
  · exact Or.inl rfl
  · right
    rw [purchaseLocal_gold] at h3
    simp only [Option.getD_some, not_lt] at h3
    refine ⟨h3, ?_⟩
    simp [effGold, needsInit, purchaseLocal_gold]

/-- C9: under the three mutating operations the currency balance stays a
non-negative integer: a spawned collection adds exactly one, the purchase
debit happens only when the balance covers the price (and never drives the
balance negative), and the reset command writes balance zero. -/
theorem currency_never_negative
    (spawned : Bool) (coinId pn pid : String) (lastCoinId : Option String)
    (store : Option PlayerCoinData) (lb : List String)
    (h : 0 ≤ effGold store) :
    0 ≤ effGold (handleCoinCollection spawned coinId pn lastCoinId store lb).store ∧
    (spawned = true →
      effGold (handleCoinCollection spawned coinId pn lastCoinId store lb).store
        = effGold store + 1) ∧
    0 ≤ effGold (purchaseParticle store pid).store ∧
    (effGold (purchaseParticle store pid).store ≠ effGold store →
      PARTICLE_COST ≤ effGold store ∧
      effGold (purchaseParticle store pid).store
        = effGold store - PARTICLE_COST) ∧
    effGold (some resetCoinsData) = 0 := by
  refine ⟨?_, ?_, ?_, ?_, by decide⟩
  · cases spawned
    · rw [collect_despawned_effGold]; exact h
    · rw [collect_spawned_effGold]; omega
  · intro hs; subst hs; exact collect_spawned_effGold _ _ _ _ _
  · rcases purchaseParticle_gold store pid with h' | ⟨h1, h2⟩
    · rw [h']; exact h
    · rw [h2]; omega
  · intro hne
    rcases purchaseParticle_gold store pid with h' | ⟨h1, h2⟩
    · exact absurd h' hne
    · exact ⟨h1, h2⟩

/-- Witness for the currency invariant at a concrete record. -/
theorem currency_never_negative_witness :
    (0:Int) ≤ effGold (some initCoinData) ∧
    (0 ≤ effGold (handleCoinCollection true "coin-1" "alice" none
        (some initCoinData) []).store ∧
     (true = true →
       effGold (handleCoinCollection true "coin-1" "alice" none
           (some initCoinData) []).store = effGold (some initCoinData) + 1) ∧
     0 ≤ effGold (purchaseParticle (some initCoinData) "particle9").store ∧
     (effGold (purchaseParticle (some initCoinData) "particle9").store
         ≠ effGold (some initCoinData) →
       PARTICLE_COST ≤ effGold (some initCoinData) ∧
       effGold (purchaseParticle (some initCoinData) "particle9").store
         = effGold (some initCoinData) - PARTICLE_COST) ∧
     effGold (some resetCoinsData) = 0) :=
  ⟨by decide,
   currency_never_negative true "coin-1" "alice" "particle9" none
     (some initCoinData) [] (by decide)⟩

/-- C6 counterexample: with a balance of 0 (< PARTICLE_COST) the purchase
of the default cosmetic particle1 returns success, not failure, and the
caller then changes the active selection to particle1. -/
theorem purchase_insufficient_default_succeeds :
    effGold (some initCoinData) < PARTICLE_COST ∧
    (purchaseParticle (some initCoinData) "particle1").success = true ∧
    (purchaseParticle (some initCoinData) "particle1").store
      = some initCoinData ∧
    (handleSelectParticle (some initCoinData) "particle1" true).store
      = some { initCoinData with selectedParticle := some "particle1" } := by
  decide

/-- C6 amended: for a cosmetic that is neither a default cosmetic nor
already owned, a purchase with balance < price fails all-or-nothing —
balance and owned set untouched, nothing persisted — and the caller leaves
the persisted record (selectedParticle included) unchanged. -/
theorem purchase_insufficient_nondefault_fails
    (store : Option PlayerCoinData) (pid : String) (present : Bool)
    (hdef : DEFAULT_PARTICLES.contains pid = false)
    (howned : ((purchaseLocal store).ownedParticles.getD []).contains pid = false)
    (hgold : effGold store < PARTICLE_COST) :
    (purchaseParticle store pid).success = false ∧
    (purchaseParticle store pid).store = store ∧
    (purchaseParticle store pid).persistWrites = 0 ∧
    (handleSelectParticle store pid present).store = store ∧
    (handleSelectParticle store pid present).insufficientMsgs = 0 ∧
    (handleSelectParticle store pid present).appliedMsgs = 0 := by
  have hg : (purchaseLocal store).gold.getD 0 = effGold store := by
    rw [purchaseLocal_gold]; rfl
  have hvalid : isValidParticleType pid = false := hdef
  have hdef2 : pid ∉ DEFAULT_PARTICLES := by simpa using hdef
  have howned2 : pid ∉ (purchaseLocal store).ownedParticles.getD [] := by
    simpa using howned
  refine ⟨?_, ?_, ?_, ?_, ?_, ?_⟩ <;>
    simp [purchaseParticle, handleSelectParticle, hdef2, howned2, hg, hgold,
      hvalid]

/-- Witness for the amended insufficient-funds property at a concrete
record with balance 0 and a non-default, unowned cosmetic id. -/
theorem purchase_insufficient_nondefault_fails_witness :
    (DEFAULT_PARTICLES.contains "particle9" = false ∧
     ((purchaseLocal (some initCoinData)).ownedParticles.getD
         []).contains "particle9" = false ∧
     effGold (some initCoinData) < PARTICLE_COST) ∧
    ((purchaseParticle (some initCoinData) "particle9").success = false ∧
     (purchaseParticle (some initCoinData) "particle9").store
       = some initCoinData ∧
     (purchaseParticle (some initCoinData) "particle9").persistWrites = 0 ∧
     (handleSelectParticle (some initCoinData) "particle9" true).store
       = some initCoinData ∧
     (handleSelectParticle (some initCoinData) "particle9" true).insufficientMsgs = 0 ∧
     (handleSelectParticle (some initCoinData) "particle9" true).appliedMsgs = 0) :=
  ⟨⟨by decide, by decide, by decide⟩,
   purchase_insufficient_nondefault_fails (some initCoinData) "particle9" true
     (by decide) (by decide) (by decide)⟩

/-- C5: requesting a switch to a known but locked island sends exactly one
rejection message and changes nothing: no despawns, the session slice and
the persisted record (selectedIsland included) are untouched, no world
transfer is initiated and no pending message is recorded. -/
theorem lockedIsland_switch_rejected
    (mappingIds worldIds : List String) (lastCoinOf : String → Option String)
    (st : SelectIslandState) (islandId : String)
    (hmap : mappingIds.contains islandId = true)
    (hlock : hasUnlockedIsland lastCoinOf st.store islandId = false) :
    handleSelectIsland mappingIds worldIds lastCoinOf st islandId =
      { state := st, lockedMsgs := 1, despawns := 0,
        worldTransfer := none, pendingJoinMsg := none } := by
  have hmap2 : islandId ∈ mappingIds := by simpa using hmap
  simp [handleSelectIsland, hmap2, hlock]

/-- Witness for the locked-island rejection at a concrete session: a
player with no persisted record asks for island2 while island1 declares a
last coin the player has not collected. -/
theorem lockedIsland_switch_rejected_witness :
    (["island1", "island2", "island3"].contains "island2" = true ∧
     hasUnlockedIsland
       (fun i => if i = "island1" then some "coin-31" else none)
       (none : Option PlayerCoinData) "island2" = false) ∧
    handleSelectIsland ["island1", "island2", "island3"]
        ["island1", "island2", "island3"]
        (fun i => if i = "island1" then some "coin-31" else none)
        { store := none, sessionPresent := true, emitterPresent := true }
        "island2" =
      { state := { store := none, sessionPresent := true, emitterPresent := true },
        lockedMsgs := 1, despawns := 0,
        worldTransfer := none, pendingJoinMsg := none } :=
  ⟨⟨by decide, by decide⟩,
   lockedIsland_switch_rejected _ _ _ _ _ (by decide) (by decide)⟩

/-- C2 counterexample: a player who has collected the declared last coin
of island1 has island2 unlocked, but after the reset command rewrites the
record to `{ gold: 0, collectedCoins: [] }` the unlock is gone (and the
leaderboard entry of the player is removed as well), so the unlock does
not stay true across the reset. -/
theorem unlock_revoked_by_reset :
    hasUnlockedIsland
      (fun i => if i = "island1" then some "coin-31" else none)
      (some { gold := some 5, collectedCoins := some ["coin-31"],
              selectedIsland := none, selectedParticle := none,
              ownedParticles := none }) "island2" = true ∧
    hasUnlockedIsland
      (fun i => if i = "island1" then some "coin-31" else none)
      (some resetCoinsData) "island2" = false ∧
    resetLeaderboard "alice" ["alice", "bob"] = ["bob"] := by
  decide

/-- C2 amended: hasUnlocked for the next zone becomes true immediately
after the collection event that performs the first admission (the last
coin id enters the persisted collected set), but the currency/progress
reset command empties the collected set, so afterwards every zone other
than the first reads as locked again. -/
theorem unlock_follows_admission_and_reset_revokes
    (lastCoinOf : String → Option String) (c pn : String)
    (store : Option PlayerCoinData) (lb : List String)
    (hc : lastCoinOf "island1" = some c) :
    hasUnlockedIsland lastCoinOf
      (handleCoinCollection true c pn (some c) store lb).store "island2" = true ∧
    (handleCoinCollection true c pn (some c) store lb).admitted
      = !((effCoins store).contains c) ∧
    (∀ islandId, islandId ≠ "island1" →
      hasUnlockedIsland lastCoinOf (some resetCoinsData) islandId = false) := by
  refine ⟨?_, ?_, ?_⟩
  · simp [handleCoinCollection, hasUnlockedIsland, prevIslandOf, hc]
  · by_cases h : (effCoins store).contains c <;>
      simp [handleCoinCollection, h]
  · intro islandId hne
    simp only [hasUnlockedIsland, prevIslandOf, resetCoinsData]
    split_ifs with h1 h2 h3 <;> simp_all <;> cases lastCoinOf "island1" <;>
      first
        | simp
        | (cases lastCoinOf "island2" <;> simp)

/-- Witness for the amended unlock property: a fresh player collects the
declared last coin of island1 for the first time. -/
theorem unlock_follows_admission_and_reset_revokes_witness :
    (fun i => if i = "island1" then some "coin-31" else none) "island1"
      = some "coin-31" ∧
    (hasUnlockedIsland
        (fun i => if i = "island1" then some "coin-31" else none)
        (handleCoinCollection true "coin-31" "alice" (some "coin-31") none
            []).store "island2" = true ∧
     (handleCoinCollection true "coin-31" "alice" (some "coin-31") none
         []).admitted = !((effCoins none).contains "coin-31") ∧
     (∀ islandId, islandId ≠ "island1" →
       hasUnlockedIsland
         (fun i => if i = "island1" then some "coin-31" else none)
         (some resetCoinsData) islandId = false)) :=
  ⟨by decide,
   unlock_follows_admission_and_reset_revokes
     (fun i => if i = "island1" then some "coin-31" else none)
     "coin-31" "alice" none [] (by decide)⟩

/-- C3: whenever a load request succeeds, an immediately repeated load of
the same zone id succeeds with the identical manager state and performs no
despawn and no respawn — the second call returns through the
already-current guard, so the two calls produce exactly the spawn set of
the first. -/
theorem loadIsland_idempotent
    (st st2 : IslandManagerState) (islandId : String)
    (acts : List IslandAction)
    (h : loadIsland st islandId = .ok (st2, acts)) :
    loadIsland st2 islandId = .ok (st2, []) := by
  have hw : st2.hasWorld = true ∧ st2.currentIslandId = some islandId := by
    by_cases h1 : st.hasWorld <;>
    by_cases h2 : st.currentIslandId = some islandId <;>
    by_cases h3 : islandId ∈ st.registered <;>
      simp [loadIsland, h1, h2, h3] at h <;>
      rcases h with ⟨h4, h5⟩ <;>
      (try subst h4) <;>
      simp_all
  rcases hw with ⟨hw1, hw2⟩
  simp [loadIsland, hw1, hw2]

/-- Witness for load idempotence: the startup load of island1 on a fresh
manager, then the repeated load. -/
theorem loadIsland_idempotent_witness :
    loadIsland { registered := ["island1", "island2", "island3"],
                 currentIslandId := none, hasWorld := true } "island1" =
      .ok ({ registered := ["island1", "island2", "island3"],
             currentIslandId := some "island1", hasWorld := true },
           [IslandAction.load "island1"]) ∧
    loadIsland { registered := ["island1", "island2", "island3"],
                 currentIslandId := some "island1", hasWorld := true } "island1" =
      .ok ({ registered := ["island1", "island2", "island3"],
             currentIslandId := some "island1", hasWorld := true }, []) :=
  ⟨by rfl,
   loadIsland_idempotent
     { registered := ["island1", "island2", "island3"],
       currentIslandId := none, hasWorld := true }
     { registered := ["island1", "island2", "island3"],
       currentIslandId := some "island1", hasWorld := true }
     "island1" [IslandAction.load "island1"] (by rfl)⟩

/-- C8: on the tick where the per-world accumulator reaches the 1000 ms
polling threshold, every tracked avatar below the fall threshold y = -50
is repositioned to the zone start position, every other avatar keeps its
position, 1000 ms are consumed from the accumulator, and the persisted
player records (currency, collected items, unlocks) are untouched. -/
theorem fall_recovery_within_one_interval
    (startPos : Pos) (st : FallState) (d : ℚ)
    (h : 1000 ≤ st.acc + d) :
    (fallTick startPos st d).records = st.records ∧
    (fallTick startPos st d).players =
      st.players.map (fun pr => if pr.2.y < -50 then (pr.1, startPos) else pr) ∧
    (fallTick startPos st d).acc = st.acc + d - 1000 := by
  simp [fallTick, h]

/-- Witness for fall recovery: one avatar at y = -100, threshold reached
by a 200 ms tick on a 900 ms accumulator, start position (0, 20, 0). -/
theorem fall_recovery_within_one_interval_witness :
    (1000:ℚ) ≤ 900 + 200 ∧
    ((fallTick { x := 0, y := 20, z := 0 }
        { acc := 900,
          players := [("p1", { x := 3, y := -100, z := 2 })],
          records := [("p1", initCoinData)] } 200).records
      = [("p1", initCoinData)] ∧
     (fallTick { x := 0, y := 20, z := 0 }
        { acc := 900,
          players := [("p1", { x := 3, y := -100, z := 2 })],
          records := [("p1", initCoinData)] } 200).players
      = [("p1", { x := 3, y := -100, z := 2 })].map
          (fun pr => if pr.2.y < -50 then (pr.1, { x := 0, y := 20, z := 0 }) else pr) ∧
     (fallTick { x := 0, y := 20, z := 0 }
        { acc := 900,
          players := [("p1", { x := 3, y := -100, z := 2 })],
          records := [("p1", initCoinData)] } 200).acc = 900 + 200 - 1000) :=
  ⟨by norm_num,
   fall_recovery_within_one_interval { x := 0, y := 20, z := 0 }
     { acc := 900,
       players := [("p1", { x := 3, y := -100, z := 2 })],
       records := [("p1", initCoinData)] } 200 (by norm_num)⟩

/-- Helper: every world handle produced from start index n onwards is at
least n. -/
theorem buildWorlds_snd_ge :
    ∀ (ids : List String) (n : Nat) (p : String × Nat),
      p ∈ buildWorlds ids n → n ≤ p.2 := by
  intro ids
  induction ids with
  | nil => intro n p hp; simp [buildWorlds] at hp
  | cons x rest ih =>
    intro n p hp
    simp only [buildWorlds, List.mem_cons] at hp
    rcases hp with hp | hp
    · subst hp; exact Nat.le_refl n
    · exact Nat.le_of_succ_le (ih (n + 1) p hp)

/-- Helper: the keys of the built registry are exactly the declared ids. -/
theorem mem_buildWorlds_fst :
    ∀ (ids : List String) (n : Nat) (p : String × Nat),
      p ∈ buildWorlds ids n → p.1 ∈ ids := by
  intro ids
  induction ids with
  | nil => intro n p hp; simp [buildWorlds] at hp
  | cons x rest ih =>
    intro n p hp
    simp only [buildWorlds, List.mem_cons] at hp
    rcases hp with hp | hp
    · subst hp; exact List.mem_cons_self _ _
    · exact List.mem_cons_of_mem _ (ih (n + 1) p hp)

/-- Helper: every declared id receives some world handle. -/
theorem exists_mem_buildWorlds :
    ∀ (ids : List String) (n : Nat) (id : String), id ∈ ids →
      ∃ k, (id, k) ∈ buildWorlds ids n := by
  intro ids
  induction ids with
  | nil => intro n id hid; simp at hid
  | cons x rest ih =>
    intro n id hid
    rcases List.mem_cons.mp hid with hid | hid
    · subst hid; exact ⟨n, List.mem_cons_self _ _⟩
    · obtain ⟨k, hk⟩ := ih (n + 1) id hid
      exact ⟨k, List.mem_cons_of_mem _ hk⟩

/-- Helper: an island id has no world exactly when it is not a key. -/
theorem getWorldForIsland_eq_none
    (ids : List String) (n : Nat) (id : String) :
    getWorldForIsland (buildWorlds ids n) id = none ↔ id ∉ ids := by
  simp only [getWorldForIsland, Option.map_eq_none', List.find?_eq_none,
    beq_iff_eq]
  constructor
  · intro h hid
    obtain ⟨k, hk⟩ := exists_mem_buildWorlds ids n id hid
    exact h (id, k) hk rfl
  · intro h p hp heq
    exact h (heq ▸ mem_buildWorlds_fst ids n p hp)

/-- Helper: a successful world lookup comes from an entry of the registry. -/
theorem getWorldForIsland_some_mem (ws : List (String × Nat)) (id : String)
    (w : Nat) (h : getWorldForIsland ws id = some w) : (id, w) ∈ ws := by
  simp only [getWorldForIsland, Option.map_eq_some'] at h
  obtain ⟨p, hp, hw⟩ := h
  have hpred : p.1 = id := by simpa using List.find?_some hp
  have hmem := List.mem_of_find?_eq_some hp
  have hpw : (id, w) = p := by cases p; simp_all
  rw [hpw]; exact hmem

/-- Helper: world handles smaller than the start index are unknown to the
registry. -/
theorem getIslandIdForWorld_small (ids : List String) (n w : Nat)
    (hw : w < n) : getIslandIdForWorld (buildWorlds ids n) w = none := by
  simp only [getIslandIdForWorld, Option.map_eq_none', List.find?_eq_none,
    beq_iff_eq]
  intro p hp heq
  have := buildWorlds_snd_ge ids n p hp
  omega

/-- Helper: with distinct keys, the reverse lookup inverts the forward
lookup on every declared id. -/
theorem getIsland_of_getWorld :
    ∀ (ids : List String) (n : Nat) (id : String), ids.Nodup → id ∈ ids →
      ∃ w, getWorldForIsland (buildWorlds ids n) id = some w ∧
           getIslandIdForWorld (buildWorlds ids n) w = some id := by
  intro ids
  induction ids with
  | nil => intro n id _ hid; simp at hid
  | cons x rest ih =>
    intro n id hnd hid
    rcases List.mem_cons.mp hid with hid1 | hid2
    · subst hid1
      refine ⟨n, ?_, ?_⟩
      · simp [buildWorlds, getWorldForIsland]
      · simp [buildWorlds, getIslandIdForWorld]
    · have hx : x ∉ rest := (List.nodup_cons.mp hnd).1
      have hrest : rest.Nodup := (List.nodup_cons.mp hnd).2
      have hne : x ≠ id := fun h => hx (h ▸ hid2)
      obtain ⟨w, hw1, hw2⟩ := ih (n + 1) id hrest hid2
      have hwge : n + 1 ≤ w :=
        buildWorlds_snd_ge rest (n + 1) (id, w)
          (getWorldForIsland_some_mem _ _ _ hw1)
      have hfx : getWorldForIsland (buildWorlds (x :: rest) n) id
          = getWorldForIsland (buildWorlds rest (n + 1)) id := by
        simp only [buildWorlds, getWorldForIsland]
        congr 1
        rw [List.find?_cons_of_neg]
        simp [hne]
      have hnw : n ≠ w := by omega
      have hfw : getIslandIdForWorld (buildWorlds (x :: rest) n) w
          = getIslandIdForWorld (buildWorlds rest (n + 1)) w := by
        simp only [buildWorlds, getIslandIdForWorld]
        congr 1
        rw [List.find?_cons_of_neg]
        simp [hnw]
      exact ⟨w, hfx ▸ hw1, hfw ▸ hw2⟩

/-- C10: after startup the two lookup directions of the world registry are
mutually inverse — for every declared island id the reverse lookup of its
world returns the same id — and the forward lookup returns null exactly on
the ids outside the mapping. -/
theorem worldRegistry_lookups_inverse
    (ids : List String) (hnd : ids.Nodup) :
    (∀ id ∈ ids,
      (getWorldForIsland (initWorlds ids) id).bind
        (getIslandIdForWorld (initWorlds ids)) = some id) ∧
    (∀ id, getWorldForIsland (initWorlds ids) id = none ↔ id ∉ ids) := by
  constructor
  · intro id hid
    obtain ⟨w, h1, h2⟩ := getIsland_of_getWorld ids 0 id hnd hid
    rw [show initWorlds ids = buildWorlds ids 0 from rfl, h1]
    exact h2
  · intro id
    exact getWorldForIsland_eq_none ids 0 id

/-- Witness for the registry inverse property on the shipped mapping keys. -/
theorem worldRegistry_lookups_inverse_witness :
    (["island1", "island2", "island3"] : List String).Nodup ∧
    ((∀ id ∈ ["island1", "island2", "island3"],
      (getWorldForIsland (initWorlds ["island1", "island2", "island3"]) id).bind
        (getIslandIdForWorld (initWorlds ["island1", "island2", "island3"]))
        = some id) ∧
     (∀ id, getWorldForIsland (initWorlds ["island1", "island2", "island3"]) id
        = none ↔ id ∉ ["island1", "island2", "island3"])) :=
  ⟨by decide, worldRegistry_lookups_inverse ["island1", "island2", "island3"]
    (by decide)⟩

/-- Unfolding runTicks on the empty tick list. -/
theorem runTicks_nil (wps : List Pos) (speed : ℚ) (loop : Bool)
    (dist : Pos → Pos → ℚ) (st : MoverState) :
    runTicks wps speed loop dist st [] = st := rfl

/-- Unfolding runTicks on a tick followed by more ticks. -/
theorem runTicks_cons (wps : List Pos) (speed : ℚ) (loop : Bool)
    (dist : Pos → Pos → ℚ) (st : MoverState) (d : ℚ) (ds : List ℚ) :
    runTicks wps speed loop dist st (d :: ds) =
      runTicks wps speed loop dist (tickStep wps speed loop dist true st d) ds :=
  rfl

/-- A detached listener never fires again: ticks leave the state alone. -/
theorem runTicks_detached (wps : List Pos) (speed : ℚ) (loop : Bool)
    (dist : Pos → Pos → ℚ) :
    ∀ (ds : List ℚ) (st : MoverState), st.attached = false →
      runTicks wps speed loop dist st ds = st := by
  intro ds
  induction ds with
  | nil => intro st _; rfl
  | cons d rest ih =>
    intro st h
    rw [runTicks_cons, show tickStep wps speed loop dist true st d = st by
      simp [tickStep, h]]
    exact ih st h

/-- The two-waypoint configuration of the testable property: a straight
10-unit segment along x. -/
def c4Waypoints : List Pos :=
  [{ x := 0, y := 0, z := 0 }, { x := 10, y := 0, z := 0 }]

/-- Mover state right after setupLinearMovement for that configuration. -/
def c4Init : MoverState :=
  { curIdx := 0, tgtIdx := 1, elapsedMs := 0,
    pos := { x := 0, y := 0, z := 0 }, attached := true, pushes := 0 }

/-- In-segment state after e milliseconds: the position pushed is the
linear interpolation at e / 2000 (the segment takes 2000 ms at speed 5). -/
def c4Mid (e : ℚ) (k : Nat) : MoverState :=
  { curIdx := 0, tgtIdx := 1, elapsedMs := e,
    pos := lerpPosition { x := 0, y := 0, z := 0 } { x := 10, y := 0, z := 0 }
            (e / 2000),
    attached := true, pushes := k }

/-- setupLinearMovement on the two-waypoint configuration yields the
initial mover state. -/
theorem c4_setup : setupLinearMovement c4Waypoints true = some c4Init := rfl

/-- One in-segment tick: while the accumulated time stays below 2000 ms,
the handler interpolates and pushes the next position. -/
theorem c4_tick_mid (dist : Pos → Pos → ℚ)
    (hdist : dist { x := 0, y := 0, z := 0 } { x := 10, y := 0, z := 0 } = 10)
    (e d : ℚ) (p : Pos) (k : Nat) (h0 : 0 ≤ e + d) (hlt : e + d < 2000) :
    tickStep c4Waypoints 5 false dist true
      { curIdx := 0, tgtIdx := 1, elapsedMs := e, pos := p,
        attached := true, pushes := k } d = c4Mid (e + d) (k + 1) := by
  have h2000 : dist { x := 0, y := 0, z := 0 } { x := 10, y := 0, z := 0 }
      / 5 * 1000 = 2000 := by
    rw [hdist]; norm_num
  have hp : ¬((1:ℚ) ≤ (e + d) / 2000) := by
    rw [not_le]
    exact (div_lt_one (by norm_num)).mpr hlt
  simp [tickStep, c4Mid, c4Waypoints, h2000, hp]

/-- The finishing tick: once the accumulated time reaches 2000 ms, the
handler snaps to the final waypoint, advances past it and, since the path
does not loop, detaches the listener. -/
theorem c4_tick_finish (dist : Pos → Pos → ℚ)
    (hdist : dist { x := 0, y := 0, z := 0 } { x := 10, y := 0, z := 0 } = 10)
    (e d : ℚ) (p : Pos) (k : Nat) (hge : 2000 ≤ e + d) :
    tickStep c4Waypoints 5 false dist true
      { curIdx := 0, tgtIdx := 1, elapsedMs := e, pos := p,
        attached := true, pushes := k } d =
      { curIdx := 1, tgtIdx := 2, elapsedMs := e + d,
        pos := { x := 10, y := 0, z := 0 }, attached := false,
        pushes := k + 1 } := by
  have h2000 : dist { x := 0, y := 0, z := 0 } { x := 10, y := 0, z := 0 }
      / 5 * 1000 = 2000 := by
    rw [hdist]; norm_num
  have hp : (1:ℚ) ≤ (e + d) / 2000 := (one_le_div (by norm_num)).mpr hge
  simp [tickStep, c4Waypoints, h2000, hp]

/-- Ticks that keep the accumulated time below 2000 ms leave the mover in
segment, at the interpolated position of the total elapsed time. -/
theorem c4_run_mid (dist : Pos → Pos → ℚ)
    (hdist : dist { x := 0, y := 0, z := 0 } { x := 10, y := 0, z := 0 } = 10) :
    ∀ (ds : List ℚ) (e : ℚ) (k : Nat), (∀ d ∈ ds, 0 ≤ d) → 0 ≤ e →
      e + ds.sum < 2000 →
      runTicks c4Waypoints 5 false dist (c4Mid e k) ds
        = c4Mid (e + ds.sum) (k + ds.length) := by
  intro ds
  induction ds with
  | nil => intro e k _ _ _; simp [runTicks_nil]
  | cons d rest ih =>
    intro e k hnn h0 hs
    have hd : 0 ≤ d := hnn d (List.mem_cons_self _ _)
    have hrest : ∀ x ∈ rest, 0 ≤ x := fun x hx => hnn x (List.mem_cons_of_mem _ hx)
    have hsum : 0 ≤ rest.sum := List.sum_nonneg hrest
    have hs2 : e + (d + rest.sum) < 2000 := by simpa using hs
    have hlt : e + d < 2000 := by linarith
    rw [runTicks_cons,
      show tickStep c4Waypoints 5 false dist true (c4Mid e k) d
          = c4Mid (e + d) (k + 1) from
        c4_tick_mid dist hdist e d _ k (by linarith) hlt,
      ih (e + d) (k + 1) hrest (by linarith) (by linarith)]
    simp only [List.sum_cons, List.length_cons]
    congr 1
    · ring
    · omega

/-- Ticks that push the accumulated time to 2000 ms or beyond leave the
mover snapped to the final waypoint with the listener detached. -/
theorem c4_run_finish (dist : Pos → Pos → ℚ)
    (hdist : dist { x := 0, y := 0, z := 0 } { x := 10, y := 0, z := 0 } = 10) :
    ∀ (ds : List ℚ) (e : ℚ) (p : Pos) (k : Nat), (∀ d ∈ ds, 0 ≤ d) →
      0 ≤ e → e < 2000 → 2000 ≤ e + ds.sum →
      (runTicks c4Waypoints 5 false dist
          { curIdx := 0, tgtIdx := 1, elapsedMs := e, pos := p,
            attached := true, pushes := k } ds).pos
        = { x := 10, y := 0, z := 0 } ∧
      (runTicks c4Waypoints 5 false dist
          { curIdx := 0, tgtIdx := 1, elapsedMs := e, pos := p,
            attached := true, pushes := k } ds).attached = false := by
  intro ds
  induction ds with
  | nil =>
    intro e p k _ h0 hlt hge
    simp only [List.sum_nil, add_zero] at hge
    linarith
  | cons d rest ih =>
    intro e p k hnn h0 hlt hge
    have hd : 0 ≤ d := hnn d (List.mem_cons_self _ _)
    have hrest : ∀ x ∈ rest, 0 ≤ x := fun x hx => hnn x (List.mem_cons_of_mem _ hx)
    by_cases hc : 2000 ≤ e + d
    · rw [runTicks_cons, c4_tick_finish dist hdist e d p k hc,
        runTicks_detached _ _ _ _ rest _ rfl]
      exact ⟨rfl, rfl⟩
    · push_neg at hc
      rw [runTicks_cons, c4_tick_mid dist hdist e d p k (by linarith) hc]
      have hge2 : 2000 ≤ (e + d) + rest.sum := by
        have : e + (d + rest.sum) = (e + d) + rest.sum := by ring
        simp only [List.sum_cons] at hge
        linarith
      simpa [c4Mid] using
        ih (e + d)
          (lerpPosition { x := 0, y := 0, z := 0 } { x := 10, y := 0, z := 0 }
            ((e + d) / 2000)) (k + 1) hrest (by linarith) hc hge2

/-- C4: for waypoints [(0,0,0), (10,0,0)], speed 5 units per second and no
loop, ticks totalling 1000 ms leave the pushed kinematic position at
(5,0,0) with the listener still attached; a further 1000 ms of ticks leave
the position exactly at (10,0,0) with the listener detached; and any ticks
after that change nothing — no further position update is issued. -/
theorem mover_reaches_midpoint_then_stops
    (dist : Pos → Pos → ℚ)
    (hdist : dist { x := 0, y := 0, z := 0 } { x := 10, y := 0, z := 0 } = 10)
    (ds1 ds2 ds3 : List ℚ)
    (h1 : ∀ d ∈ ds1, 0 ≤ d) (hs1 : ds1.sum = 1000)
    (h2 : ∀ d ∈ ds2, 0 ≤ d) (hs2 : ds2.sum = 1000) :
    (runTicks c4Waypoints 5 false dist c4Init ds1).pos
      = { x := 5, y := 0, z := 0 } ∧
    (runTicks c4Waypoints 5 false dist c4Init ds1).attached = true ∧
    (runTicks c4Waypoints 5 false dist
      (runTicks c4Waypoints 5 false dist c4Init ds1) ds2).pos
      = { x := 10, y := 0, z := 0 } ∧
    (runTicks c4Waypoints 5 false dist
      (runTicks c4Waypoints 5 false dist c4Init ds1) ds2).attached = false ∧
    runTicks c4Waypoints 5 false dist
        (runTicks c4Waypoints 5 false dist
          (runTicks c4Waypoints 5 false dist c4Init ds1) ds2) ds3
      = runTicks c4Waypoints 5 false dist
          (runTicks c4Waypoints 5 false dist c4Init ds1) ds2 := by
  have hinit : c4Init = c4Mid 0 0 := by
    simp [c4Init, c4Mid, lerpPosition]
  have hst1 : runTicks c4Waypoints 5 false dist c4Init ds1
      = c4Mid 1000 ds1.length := by
    rw [hinit, c4_run_mid dist hdist ds1 0 0 h1 le_rfl (by rw [hs1]; norm_num)]
    rw [hs1]
    simp
  have hmid : c4Mid 1000 ds1.length
      = { curIdx := 0, tgtIdx := 1, elapsedMs := 1000,
          pos := { x := 5, y := 0, z := 0 }, attached := true,
          pushes := ds1.length } := by
    simp only [c4Mid, lerpPosition]
    norm_num
  have hst2 := c4_run_finish dist hdist ds2 1000
    { x := 5, y := 0, z := 0 } ds1.length h2 (by norm_num) (by norm_num)
    (by rw [hs2]; norm_num)
  rw [hst1, hmid]
  refine ⟨rfl, rfl, hst2.1, hst2.2, ?_⟩
  exact runTicks_detached _ _ _ _ ds3 _ hst2.2

/-- Witness for the mover property with two 500 ms ticks, one 1000 ms
tick, and one extra 333 ms tick, using the exact segment distance 10. -/
theorem mover_reaches_midpoint_then_stops_witness :
    ((∀ d ∈ [(500:ℚ), 500], 0 ≤ d) ∧ [(500:ℚ), 500].sum = 1000 ∧
     (∀ d ∈ [(1000:ℚ)], 0 ≤ d) ∧ [(1000:ℚ)].sum = 1000) ∧
    ((runTicks c4Waypoints 5 false (fun _ _ => 10) c4Init [500, 500]).pos
       = { x := 5, y := 0, z := 0 } ∧
     (runTicks c4Waypoints 5 false (fun _ _ => 10) c4Init [500, 500]).attached
       = true ∧
     (runTicks c4Waypoints 5 false (fun _ _ => 10)
       (runTicks c4Waypoints 5 false (fun _ _ => 10) c4Init [500, 500])
       [1000]).pos = { x := 10, y := 0, z := 0 } ∧
     (runTicks c4Waypoints 5 false (fun _ _ => 10)
       (runTicks c4Waypoints 5 false (fun _ _ => 10) c4Init [500, 500])
       [1000]).attached = false ∧
     runTicks c4Waypoints 5 false (fun _ _ => 10)
         (runTicks c4Waypoints 5 false (fun _ _ => 10)
           (runTicks c4Waypoints 5 false (fun _ _ => 10) c4Init [500, 500])
           [1000]) [333]
       = runTicks c4Waypoints 5 false (fun _ _ => 10)
           (runTicks c4Waypoints 5 false (fun _ _ => 10) c4Init [500, 500])
           [1000]) :=
  ⟨⟨by norm_num, by norm_num, by norm_num, by norm_num⟩,
   mover_reaches_midpoint_then_stops (fun _ _ => 10) rfl [500, 500] [1000]
     [333] (by norm_num) (by norm_num) (by norm_num) (by norm_num)⟩
